import Mathlib

set_option maxRecDepth 8192

/-!
Verification development for the `nifcloud_nas_exporter` repository.

The embedding below models `collector/nas.go`: the per-metric scrape routine
(request-body construction, selection of the most recent data point among
possibly-unordered results, error handling) and the collection pass that fans
out one scrape per tracked metric and emits value / duration / success samples.

Modelling conventions:
  * Go `time.Time` instants are absolute UTC times in integer nanoseconds
    since the Unix epoch (Go's wall clock has nanosecond resolution, and
    `time.Time.Before` compares instants).
  * Go `float64` values parsed by `strconv.ParseFloat` are kept as the exact
    decimal representation that was parsed (`FloatRep`): the scrape code never
    performs arithmetic on the parsed value, it only forwards it, so the
    representation is a faithful model of the data flow.
  * The outbound Prometheus channel is modelled by the list of samples a call
    emits, in emission order (each goroutine's sends are ordered on the
    channel; cross-goroutine interleaving is nondeterministic, so cross-metric
    statements below are phrased order-insensitively).
  * The NIFCLOUD SDK client, credentials and the HTTP transport are external
    to the repository; the outcome of `request.Send` is an input of the model
    (either a transport error or the decoded list of data points).
-/

namespace NasExporter

/-- A single digit character, as tested by Go's parsing helpers. -/
def getDigit (c : Char) : Option Nat :=
  if '0' ≤ c ∧ c ≤ '9' then some (c.toNat - 48) else none

/-- Read exactly two digits (Go `getnum` with fixed width 2). -/
def parse2 : List Char → Option (Nat × List Char)
  | a :: b :: r =>
    match getDigit a, getDigit b with
    | some x, some y => some (10 * x + y, r)
    | _, _ => none
  | _ => none

/-- Read exactly four digits (Go `getnum4`, used for the year). -/
def parse4 : List Char → Option (Nat × List Char)
  | a :: b :: c :: d :: r =>
    match getDigit a, getDigit b, getDigit c, getDigit d with
    | some x, some y, some z, some w => some (1000 * x + 100 * y + 10 * z + w, r)
    | _, _, _, _ => none
  | _ => none

/-- Require a literal separator character, as Go layout matching does. -/
def expectChar (c : Char) : List Char → Option (List Char)
  | a :: r => if a = c then some r else none
  | _ => none

/-- Consume a maximal run of digits, returning their values. -/
def takeDigits : List Char → (List Nat × List Char)
  | [] => ([], [])
  | c :: r =>
    match getDigit c with
    | some d =>
      let (ds, rest) := takeDigits r
      (d :: ds, rest)
    | none => ([], c :: r)

/-- Value of a digit string, most significant first. -/
def digitsVal (ds : List Nat) : Nat :=
  ds.foldl (fun a d => 10 * a + d) 0

/-- Gregorian leap-year rule, as in Go's `isLeap`. -/
def isLeap (y : Nat) : Bool :=
  y % 4 == 0 && (y % 100 != 0 || y % 400 == 0)

/-- Length of a month, as in Go's `daysIn` (month range checks in `Parse`). -/
def daysInMonth (y m : Nat) : Nat :=
  match m with
  | 1 => 31
  | 2 => if isLeap y then 29 else 28
  | 3 => 31
  | 4 => 30
  | 5 => 31
  | 6 => 30
  | 7 => 31
  | 8 => 31
  | 9 => 30
  | 10 => 31
  | 11 => 30
  | 12 => 31
  | _ => 0

/-- Days from 1970-01-01 to the civil date `y-m-d` (proleptic Gregorian,
matching Go's `time` package date arithmetic).  The year is shifted by one
400-year era so that all intermediate arithmetic stays in `Nat`; the shift of
146097 days is subtracted at the end (865565 = 719468 + 146097). -/
def daysFromCivil (y m d : Nat) : Int :=
  let yAdj : Nat := if m ≤ 2 then y + 399 else y + 400
  let era : Nat := yAdj / 400
  let yoe : Nat := yAdj % 400
  let mp : Nat := (m + 9) % 12
  let doy : Nat := (153 * mp + 2) / 5 + (d - 1)
  let doe : Nat := yoe * 365 + yoe / 4 - yoe / 100 + doy
  (era * 146097 + doe : Int) - 865565

/-- Seconds since the Unix epoch of the UTC civil instant `y-m-d h:mi:s`. -/
def epochSeconds (y m d h mi s : Nat) : Int :=
  daysFromCivil y m d * 86400 + (h * 3600 + mi * 60 + s : Nat)

/-- Go's zero `time.Time` (January 1, year 1, 00:00:00 UTC), in nanoseconds
since the Unix epoch.  This is the initial value of `latest := new(time.Time)`
in `scrape`. -/
def goZeroTimeNanos : Int :=
  epochSeconds 1 1 1 0 0 0 * 1000000000

/-- Read one or two digits, Go's `getnum(value, false)`: two when the second
character is also a digit, otherwise one (the hour of the RFC 3339 layout is
parsed non-fixed, so a single-digit hour is accepted). -/
def parseNum1or2 : List Char → Option (Nat × List Char)
  | a :: b :: r =>
    match getDigit a, getDigit b with
    | some x, some y => some (10 * x + y, r)
    | some x, none => some (x, b :: r)
    | none, _ => none
  | [a] =>
    match getDigit a with
    | some x => some (x, [])
    | none => none
  | [] => none

/-- Nanoseconds of a fractional-second digit run, Go 1.13
`parseNanoseconds`: the digits are read as one integer, a value of 1e9 or
more (including overlong runs) is a range error, and the value is scaled by
`10^(10 - nbytes)` where `nbytes` counts the dot and the digits — so a run
of more than nine digits whose value is below 1e9 (leading zeros) is kept
unscaled. -/
def fracNanos (ds : List Nat) : Option Nat :=
  let ns := digitsVal ds
  if 1000000000 ≤ ns then none
  else if ds.length ≤ 9 then some (ns * 10 ^ (9 - ds.length))
  else some ns

/-- Optional fractional seconds after the seconds field.  Go's `Parse`
consumes `'.'` followed by at least one digit even when the layout carries no
fraction; otherwise the input is left untouched.  A fractional-second range
error fails the whole parse. -/
def parseFraction : List Char → Option (Nat × List Char)
  | '.' :: c :: r =>
    match getDigit c with
    | some d =>
      let (ds, rest) := takeDigits r
      match fracNanos (d :: ds) with
      | some ns => some (ns, rest)
      | none => none
    | none => some (0, '.' :: c :: r)
  | r => some (0, r)

/-- A two-character offset field, parsed with Go `time`'s internal `atoi`:
either two digits, or a sign followed by one digit (Go slices `±hh:mm` into
fixed two-character fields and runs `atoi` on each, which accepts a leading
sign). -/
def atoi2 (a b : Char) : Option Int :=
  match a with
  | '+' => (getDigit b).map fun d => (d : Int)
  | '-' => (getDigit b).map fun d => -(d : Int)
  | _ =>
    match getDigit a, getDigit b with
    | some x, some y => some ((10 * x + y : Nat) : Int)
    | _, _ => none

/-- Time-zone suffix of an RFC 3339 timestamp, Go layout chunk `Z07:00`:
`Z`, or a sign and the two two-character fields `hh`/`mm` separated by a
colon, each read with `atoi` (so a signed single digit is accepted inside a
field); the offset east of UTC is `(hh*60 + mm)*60` seconds, negated for a
leading minus.  Go does not range-check the fields. -/
def parseOffset : List Char → Option (Int × List Char)
  | 'Z' :: r => some (0, r)
  | '+' :: h1 :: h2 :: ':' :: m1 :: m2 :: r =>
    match atoi2 h1 h2, atoi2 m1 m2 with
    | some hr, some mm => some ((hr * 60 + mm) * 60, r)
    | _, _ => none
  | '-' :: h1 :: h2 :: ':' :: m1 :: m2 :: r =>
    match atoi2 h1 h2, atoi2 m1 m2 with
    | some hr, some mm => some (-((hr * 60 + mm) * 60), r)
    | _, _ => none
  | _ => none

/-- Go 1.13 `time.Parse(time.RFC3339, s)`: four-digit year, two-digit month
and day, one-or-two-digit hour (the `15` layout chunk is non-fixed),
two-digit minute and second, optional fractional seconds, and a `Z` or
`±hh:mm` offset.  Field ranges are checked as Go's `Parse` does (month,
day-in-month, hour, minute, second; the year is any four-digit number,
including 0000, and is not range-checked).  The result is the absolute
instant in nanoseconds since the Unix epoch. -/
def parseRFC3339 (s : String) : Option Int := do
  let (y, r) ← parse4 s.data
  let r ← expectChar '-' r
  let (mo, r) ← parse2 r
  let r ← expectChar '-' r
  let (d, r) ← parse2 r
  let r ← expectChar 'T' r
  let (h, r) ← parseNum1or2 r
  let r ← expectChar ':' r
  let (mi, r) ← parse2 r
  let r ← expectChar ':' r
  let (sec, r) ← parse2 r
  let (nanos, r) ← parseFraction r
  let (off, r) ← parseOffset r
  if r.isEmpty ∧ 1 ≤ mo ∧ mo ≤ 12 ∧ 1 ≤ d ∧ d ≤ daysInMonth y mo ∧
      h ≤ 23 ∧ mi ≤ 59 ∧ sec ≤ 59 then
    some (epochSeconds y mo d h mi sec * 1000000000 + (nanos : Int)
      - off * 1000000000)
  else
    none

/-- A parsed `float64` as `strconv.ParseFloat` produces it: a finite value
kept as its exact decimal `(-1)^neg * mant * 10^exp10`, an infinity, or a
NaN.  The scrape code never computes with the parsed value, it only forwards
it to the emitted sample, so keeping the exact decimal (rather than the
nearest binary64, whose rounding is value-preserving per input string)
models the `float64` data flow faithfully. -/
inductive FloatRep where
  | finite (neg : Bool) (mant : Nat) (exp10 : Int)
  | inf (neg : Bool)
  | nan
  deriving DecidableEq, Repr

/-- Rational value denoted by a finite `FloatRep`. -/
def FloatRep.toRat : FloatRep → Option ℚ
  | .finite neg m e => some ((if neg then -1 else 1) * (m : ℚ) * (10 : ℚ) ^ e)
  | _ => none

/-- The zero `float64`, the initial value of `latestVal` in `scrape`. -/
def zeroFloat : FloatRep := .finite false 0 0

/-- The `float64` constant 1 (`success = 1` in `collect`). -/
def oneFloat : FloatRep := .finite false 1 0

/-- ASCII lower-casing of a letter, as Go's `lower(c) = c | 0x20` used in
case-insensitive comparisons of letters. -/
def lowerChar (c : Char) : Char :=
  if 'A' ≤ c ∧ c ≤ 'Z' then Char.ofNat (c.toNat + 32) else c

/-- Case-insensitive comparison against a lower-case pattern
(Go `special`'s letter matching). -/
def equalFold : List Char → List Char → Bool
  | [], [] => true
  | a :: as, b :: bs => lowerChar a == b && equalFold as bs
  | _, _ => false

/-- Whether a list spells `inf` or `infinity`, case-insensitively. -/
def isInfStr (cs : List Char) : Bool :=
  equalFold cs ['i', 'n', 'f'] ||
    equalFold cs ['i', 'n', 'f', 'i', 'n', 'i', 't', 'y']

/-- Go `strconv`'s `special`: `Inf`/`Infinity` with optional sign and the
unsigned `NaN`, all case-insensitive, parse with a nil error. -/
def special (cs : List Char) : Option FloatRep :=
  match cs with
  | '+' :: rest => if isInfStr rest then some (.inf false) else none
  | '-' :: rest => if isInfStr rest then some (.inf true) else none
  | _ =>
    if isInfStr cs then some (.inf false)
    else if equalFold cs ['n', 'a', 'n'] then some .nan
    else none

/-- State machine of Go `strconv.underscoreOK`: every underscore must sit
between digits (the base prefix counting as a digit). The state is the class
of the previous character. -/
def underscoreOKLoop (hex : Bool) : List Char → Char → Bool
  | [], saw => saw ≠ '_'
  | c :: rest, saw =>
    if ('0' ≤ c ∧ c ≤ '9') ∨ (hex ∧ 'a' ≤ lowerChar c ∧ lowerChar c ≤ 'f') then
      underscoreOKLoop hex rest '0'
    else if c = '_' then
      if saw = '0' then underscoreOKLoop hex rest '_' else false
    else if saw = '_' then false
    else underscoreOKLoop hex rest '!'

/-- Go `strconv.underscoreOK` on the whole input (sign and base prefix
skipped first). -/
def underscoreOK (cs : List Char) : Bool :=
  let cs1 :=
    match cs with
    | '+' :: r => r
    | '-' :: r => r
    | r => r
  match cs1 with
  | '0' :: b :: r =>
    if lowerChar b = 'b' ∨ lowerChar b = 'o' ∨ lowerChar b = 'x' then
      underscoreOKLoop (lowerChar b = 'x') r '0'
    else underscoreOKLoop false cs1 '^'
  | _ => underscoreOKLoop false cs1 '^'

/-- Value of a hexadecimal or decimal digit under the given base flag. -/
def digitValIn (hex : Bool) (c : Char) : Option Nat :=
  if '0' ≤ c ∧ c ≤ '9' then some (c.toNat - 48)
  else if hex ∧ 'a' ≤ lowerChar c ∧ lowerChar c ≤ 'f' then
    some ((lowerChar c).toNat - 87)
  else none

/-- Scan a digit run in the given base, skipping underscores as Go's
`readFloat` digit loops do (their placement is validated afterwards by
`underscoreOK`).  Returns the digit values, whether an underscore was seen,
and the rest. -/
def takeDigitsU (hex : Bool) : List Char → (List Nat × Bool × List Char)
  | [] => ([], false, [])
  | c :: r =>
    if c = '_' then
      let (ds, _, rest) := takeDigitsU hex r
      (ds, true, rest)
    else
      match digitValIn hex c with
      | some d =>
        let (ds, u, rest) := takeDigitsU hex r
        (d :: ds, u, rest)
      | none => ([], false, c :: r)

/-- Value of a digit string in the given base, most significant first. -/
def digitsValIn (hex : Bool) (ds : List Nat) : Nat :=
  ds.foldl (fun a d => (if hex then 16 else 10) * a + d) 0

/-- Mantissa of Go's `readFloat`: digits, an optional dot, more digits; at
least one digit overall (`5.` and `.5` are accepted).  Returns the digit
value, the number of fractional digits, whether an underscore was seen, and
the rest. -/
def parseMantissaU (hex : Bool) (cs : List Char) :
    Option (Nat × Nat × Bool × List Char) :=
  let (intDs, u1, r) := takeDigitsU hex cs
  match r with
  | '.' :: r1 =>
    let (fracDs, u2, r2) := takeDigitsU hex r1
    if intDs.length + fracDs.length = 0 then none
    else some (digitsValIn hex (intDs ++ fracDs), fracDs.length, u1 || u2, r2)
  | _ =>
    if intDs.length = 0 then none
    else some (digitsValIn hex intDs, 0, u1, r)

/-- Signed decimal exponent digits (after `e`/`E`/`p`/`P`), at least one
digit, underscores skipped; returns the value, the underscore flag and the
rest. -/
def parseExpDigits (cs : List Char) : Option (Int × Bool × List Char) :=
  let (sgn, r) :=
    match cs with
    | '-' :: r => ((-1 : Int), r)
    | '+' :: r => ((1 : Int), r)
    | r => ((1 : Int), r)
  let (ds, u, r1) := takeDigitsU false r
  if ds.length = 0 then none
  else some (sgn * (digitsValIn false ds : Int), u, r1)

/-- Smallest magnitude that `strconv.ParseFloat` rounds to infinity and
reports as an `ErrRange` error: `2^1024 - 2^970`, the midpoint above the
largest finite `float64` (ties round to even, that is away from the odd
largest-finite mantissa). -/
def ovfThreshold : Nat := 2 ^ 970 * (2 ^ 54 - 1)

/-- Whether `mant * 10^exp10` is out of `float64` range. -/
def decOverflow (mant : Nat) (exp10 : Int) : Bool :=
  if 0 ≤ exp10 then ovfThreshold ≤ mant * 10 ^ exp10.toNat
  else ovfThreshold * 10 ^ (-exp10).toNat ≤ mant

/-- Whether `mant * 2^exp2` is out of `float64` range. -/
def hexOverflow (mant : Nat) (exp2 : Int) : Bool :=
  if 0 ≤ exp2 then ovfThreshold ≤ mant * 2 ^ exp2.toNat
  else ovfThreshold * 2 ^ (-exp2).toNat ≤ mant

/-- Exact decimal form of the hexadecimal-float value `mant * 2^exp2`
(`2^-k = 5^k * 10^-k`, so the value is always exactly representable). -/
def hexToRep (neg : Bool) (mant : Nat) (exp2 : Int) : FloatRep :=
  if 0 ≤ exp2 then .finite neg (mant * 2 ^ exp2.toNat) 0
  else .finite neg (mant * 5 ^ (-exp2).toNat) exp2

/-- Decimal branch of Go's `readFloat`: mantissa, optional `e`/`E` signed
exponent, nothing after it; underscores validated on the full string; an
out-of-range magnitude is the `ErrRange` error path, which `scrape` treats
as a failure. -/
def parseDecFloat (neg : Bool) (cs full : List Char) : Option FloatRep :=
  match parseMantissaU false cs with
  | none => none
  | some (mant, fracLen, u1, rest) =>
    match rest with
    | [] =>
      if u1 ∧ ¬underscoreOK full then none
      else if decOverflow mant (-(fracLen : Int)) then none
      else some (.finite neg mant (-(fracLen : Int)))
    | e :: r2 =>
      if e = 'e' ∨ e = 'E' then
        match parseExpDigits r2 with
        | some (ex, u2, []) =>
          if (u1 || u2) ∧ ¬underscoreOK full then none
          else if decOverflow mant (ex - fracLen) then none
          else some (.finite neg mant (ex - fracLen))
        | _ => none
      else none

/-- Hexadecimal branch of Go's `readFloat` (Go 1.13): hex mantissa, a
mandatory `p`/`P` signed decimal exponent, nothing after it; each
fractional hex digit shifts the binary exponent by four. -/
def parseHexFloat (neg : Bool) (cs full : List Char) : Option FloatRep :=
  match parseMantissaU true cs with
  | none => none
  | some (mant, fracLen, u1, rest) =>
    match rest with
    | p :: r2 =>
      if p = 'p' ∨ p = 'P' then
        match parseExpDigits r2 with
        | some (ex, u2, []) =>
          if (u1 || u2) ∧ ¬underscoreOK full then none
          else if hexOverflow mant (ex - 4 * fracLen) then none
          else some (hexToRep neg mant (ex - 4 * fracLen))
        | _ => none
      else none
    | [] => none

/-- Go 1.13 `strconv.ParseFloat(s, 64)` at `scrape`'s call site: `none` is
the non-nil-error path (syntax error or `ErrRange` overflow, on which
`scrape` returns immediately), `some` the nil-error path with the parsed
value.  Special `Inf`/`NaN` forms, hexadecimal floats and digit underscores
parse as in Go.  Finite in-range values are kept as their exact decimal:
binary64 rounding (and the underflow-to-zero of magnitudes below the
smallest subnormal, which Go reports with a nil error) is not applied, which
is value-preserving per input string and leaves every success/failure
outcome identical to Go's. -/
def parseFloat (s : String) : Option FloatRep :=
  match special s.data with
  | some f => some f
  | none =>
    let (neg, cs) :=
      match s.data with
      | '-' :: r => (true, r)
      | '+' :: r => (false, r)
      | r => (false, r)
    match cs with
    | '0' :: x :: r =>
      if lowerChar x = 'x' then parseHexFloat neg r s.data
      else parseDecFloat neg cs s.data
    | _ => parseDecFloat neg cs s.data

/-- One data point of a `GetMetricStatistics` response: an RFC 3339 timestamp
string and the aggregate sum as a decimal string (`dp.Timestamp`, `dp.Sum`). -/
structure Datapoint where
  timestamp : String
  sum : String
  deriving DecidableEq, Repr

/-- A tracked metric: the vendor-side statistic name and the fully qualified
Prometheus name built by `prometheus.BuildFQName(namespace, "", name)`. -/
structure Metric where
  name : String
  fqName : String
  deriving DecidableEq, Repr

/-- Fully qualified name of the per-metric scrape-duration gauge. -/
def scrapeDurationFq : String := "nifcloud_nas_scrape_collector_duration_seconds"

/-- Fully qualified name of the per-metric scrape-success gauge. -/
def scrapeSuccessFq : String := "nifcloud_nas_scrape_collector_success"

/-- The fixed metric list of `collector/nas.go` (the `metrics` package
variable): eleven metrics, known at startup, never mutated. -/
def metrics : List Metric := [
  ⟨"FreeStorageSpace", "nifcloud_nas_free_storage_space"⟩,
  ⟨"UsedStorageSpace", "nifcloud_nas_used_storage_space"⟩,
  ⟨"ReadIOPS", "nifcloud_nas_read_iops"⟩,
  ⟨"WriteIOPS", "nifcloud_nas_write_iops"⟩,
  ⟨"ReadThroughput", "nifcloud_nas_read_throughput"⟩,
  ⟨"WriteThroughput", "nifcloud_nas_write_throughput"⟩,
  ⟨"ActiveConnections", "nifcloud_nas_active_connections"⟩,
  ⟨"GlobalReadTraffic", "nifcloud_nas_global_read_traffic"⟩,
  ⟨"PrivateReadTraffic", "nifcloud_nas_private_read_traffic"⟩,
  ⟨"GlobalWriteTraffic", "nifcloud_nas_global_write_traffic"⟩,
  ⟨"PrivateWriteTraffic", "nifcloud_nas_private_write_traffic"⟩]

/-- The vendor-side names of the fixed metric list. -/
def metricNames : List String := metrics.map (fun m => m.name)

/-- A gauge sample written to the Prometheus channel by
`prometheus.MustNewConstMetric(desc, GaugeValue, value, labelValues...)`:
the descriptor's fully qualified name, the label pairs, and the value. -/
structure Sample where
  desc : String
  labels : List (String × String)
  value : FloatRep
  deriving DecidableEq, Repr

/-- The `NASCollector` struct.  The SDK client (built from the credentials)
performs the network call, which the model treats as an input, so only the
fields the collection logic reads are kept. -/
structure NASCollector where
  metrics : List Metric
  nasInstanceIdentifier : String
  region : String
  deriving DecidableEq, Repr

/-- Constructor `NewNASCollector`: a collector over the fixed metric list for one target
instance (the credential arguments only configure the external SDK client). -/
def NewNASCollector (nasInstanceIdentifier region : String) : NASCollector :=
  ⟨metrics, nasInstanceIdentifier, region⟩

/-- The ways `scrape` can fail, one constructor per `return err` path:
a transport error from `request.Send`, an empty response
(`fetched no datapoints`), an unparsable timestamp, or an unparsable sum.
Request build/encode failures cannot occur for the fixed inputs the collector
passes and are not modelled. -/
inductive ScrapeError where
  | transport (msg : String)
  | noData
  | parseTimestamp (s : String)
  | parseSum (s : String)
  deriving DecidableEq, Repr

/-- Whether an error is one of the two parse-failure kinds
(`could not parse timestamp` / `could not parse sum`). -/
def ScrapeError.isParseFailure : ScrapeError → Bool
  | .parseTimestamp _ => true
  | .parseSum _ => true
  | _ => false

/-- Parsed timestamp of a data point, defaulting to 0 (used in statements
whose hypotheses guarantee the parse succeeds). -/
def tsOf (dp : Datapoint) : Int :=
  (parseRFC3339 dp.timestamp).getD 0

/-- Parsed sum of a data point, defaulting to the zero float. -/
def valOf (dp : Datapoint) : FloatRep :=
  (parseFloat dp.sum).getD zeroFloat

/-- The selection loop of `scrape` (lines 226-243 of `collector/nas.go`):
`latest` starts at the zero time and `latestVal` at 0; each data point's
timestamp is parsed, points strictly before `latest` are skipped, any other
point becomes the new `latest` and its sum is parsed into `latestVal`. -/
def scrapeLoop : List Datapoint → Int → FloatRep → Except ScrapeError FloatRep
  | [], _, latestVal => .ok latestVal
  | dp :: rest, latest, latestVal =>
    match parseRFC3339 dp.timestamp with
    | none => .error (.parseTimestamp dp.timestamp)
    | some timestamp =>
      if timestamp < latest then
        scrapeLoop rest latest latestVal
      else
        match parseFloat dp.sum with
        | none => .error (.parseSum dp.sum)
        | some v => scrapeLoop rest timestamp v

/-- The value sample `scrape` emits on success: the metric's descriptor with
label values `n.nasInstanceIdentifier` and `n.region`. -/
def valueSample (n : NASCollector) (m : Metric) (v : FloatRep) : Sample :=
  ⟨m.fqName, [("instance", n.nasInstanceIdentifier), ("region", n.region)], v⟩

/-- Method `NASCollector.scrape` for one metric.  The request sending is external;
`response` is its outcome.  An empty response fails with `noData`; otherwise
the selection loop runs and, on success, the value sample is emitted. -/
def NASCollector.scrape (n : NASCollector) (m : Metric)
    (response : Except String (List Datapoint)) : Except ScrapeError Sample :=
  match response with
  | .error e => .error (.transport e)
  | .ok datapoints =>
    match datapoints with
    | [] => .error .noData
    | _ :: _ =>
      match scrapeLoop datapoints goZeroTimeNanos zeroFloat with
      | .error e => .error e
      | .ok v => .ok (valueSample n m v)

/-- The per-metric duration gauge sample emitted by `collect`. -/
def durationSample (name : String) (d : FloatRep) : Sample :=
  ⟨scrapeDurationFq, [("metric_name", name)], d⟩

/-- The per-metric success gauge sample emitted by `collect`. -/
def successSample (name : String) (s : FloatRep) : Sample :=
  ⟨scrapeSuccessFq, [("metric_name", name)], s⟩

/-- Method `NASCollector.collect` for one metric: runs `scrape`, then always emits
the duration gauge followed by the success gauge (1 on success, 0 on error;
the error is additionally logged, which has no effect on the samples).
`dur` is the measured elapsed time `duration.Seconds()`, an input of the
model.  The returned list is the emission order on the channel. -/
def NASCollector.collect (n : NASCollector) (m : Metric)
    (response : Except String (List Datapoint)) (dur : FloatRep) : List Sample :=
  match n.scrape m response with
  | .ok s => [s, durationSample m.name dur, successSample m.name oneFloat]
  | .error _ => [durationSample m.name dur, successSample m.name zeroFloat]

/-- Samples of a collection pass over an explicit metric list, one `collect`
per metric.  `responses` and `durations` give each metric's fetch outcome and
measured duration, keyed by metric name.  The per-metric goroutines of
`Collect` interleave nondeterministically on the channel, so statements about
the whole pass are phrased order-insensitively; within one metric the order
of this list is the channel order of that metric's goroutine. -/
def collectSamples (n : NASCollector) (ms : List Metric)
    (responses : String → Except String (List Datapoint))
    (durations : String → FloatRep) : List Sample :=
  (ms.map (fun m => n.collect m (responses m.name) (durations m.name))).flatten

/-- Method `NASCollector.Collect`: one full collection pass over the collector's
metric list, waiting for every per-metric fetch (fan-out/fan-in barrier). -/
def NASCollector.Collect (n : NASCollector)
    (responses : String → Except String (List Datapoint))
    (durations : String → FloatRep) : List Sample :=
  collectSamples n n.metrics responses durations

/-- One collection pass viewed as a state transition: the Go `Collect` has a
value receiver and assigns none of the collector's fields, so the collector
state after the pass is the collector state before it. -/
def CollectPass (n : NASCollector)
    (responses : String → Except String (List Datapoint))
    (durations : String → FloatRep) : List Sample × NASCollector :=
  (n.Collect responses durations, n)

/-- Repeated collection passes with a stubbed fetcher, threading the collector
state; returns the emitted output of each pass. -/
def runPasses : Nat → NASCollector → (String → Except String (List Datapoint)) →
    (String → FloatRep) → List (List Sample)
  | 0, _, _, _ => []
  | k + 1, n, responses, durations =>
    let p := CollectPass n responses durations
    p.1 :: runPasses k p.2 responses durations

/-- The character of a decimal digit value (`'0'` through `'9'`). -/
def digitChar (n : Nat) : Char :=
  Char.ofNat (48 + n % 10)

/-- Two-digit zero-padded field of Go's `Format` (layout chunks `01`, `02`,
`15`, `04`, `05`; the fields of a valid instant are below 100). -/
def pad2 (n : Nat) : List Char :=
  [digitChar (n / 10), digitChar n]

/-- Four-digit zero-padded year of Go's `Format` (layout chunk `2006`; the
year of an instant taken from the system clock is below 10000). -/
def pad4 (n : Nat) : List Char :=
  [digitChar (n / 1000), digitChar (n / 100), digitChar (n / 10), digitChar n]

/-- Civil date (year, month, day) of a day count relative to 1970-01-01,
proleptic Gregorian, matching Go's `absDate`.  Total for days at or after
0000-03-01; instants taken from the system clock are far inside that range. -/
def civilFromDays (z : Int) : Nat × Nat × Nat :=
  let zn : Nat := (z + 719468).toNat
  let era : Nat := zn / 146097
  let doe : Nat := zn % 146097
  let yoe : Nat := (doe - doe / 1460 + doe / 36524 - doe / 146096) / 365
  let y : Nat := yoe + era * 400
  let doy : Nat := doe - (365 * yoe + yoe / 4 - yoe / 100)
  let mp : Nat := (5 * doy + 2) / 153
  let d : Nat := doy - (153 * mp + 2) / 5 + 1
  let m : Nat := if mp < 10 then mp + 3 else mp - 9
  (if m ≤ 2 then y + 1 else y, m, d)

/-- Go `t.Format("2006-01-02 15:04:05")` for the UTC instant `t` given in
nanoseconds since the Unix epoch (`timestampLayout` in `collector/nas.go`).
Formatting drops the sub-second part (floor), converts to a civil UTC date
and prints zero-padded fields. -/
def formatTimestamp (t : Int) : String :=
  let secs : Int := t / 1000000000
  let days : Int := secs / 86400
  let sod : Nat := (secs % 86400).toNat
  let ymd := civilFromDays days
  String.mk (pad4 ymd.1 ++ '-' :: pad2 ymd.2.1 ++ '-' :: pad2 ymd.2.2 ++
    ' ' :: pad2 (sod / 3600) ++ ':' :: pad2 (sod % 3600 / 60) ++
    ':' :: pad2 (sod % 60))

/-- The query fields of the statistics request that `scrape` builds; `Action`
and `Version` come from the external SDK's operation metadata and are not
modelled.  `now` is the current instant (`time.Now().In(time.UTC)`) in
nanoseconds since the Unix epoch; `StartTime` is 180 seconds before it. -/
structure RequestBody where
  dimensionName : String
  dimensionValue : String
  metricName : String
  startTime : String
  endTime : String
  deriving DecidableEq, Repr

/-- The request body built by `scrape` (lines 192-214 of `collector/nas.go`):
one dimension `NASInstanceIdentifier = instance`, the metric name, and the
180-second trailing window `[now-180s, now]` formatted with
`timestampLayout` in UTC. -/
def buildRequestBody (now : Int) (instanceId metricName : String) : RequestBody :=
  { dimensionName := "NASInstanceIdentifier"
    dimensionValue := instanceId
    metricName := metricName
    startTime := formatTimestamp (now - 180 * 1000000000)
    endTime := formatTimestamp now }

/-- Spec-side shape check, written from the spec's words: the string is
exactly `YYYY-MM-DD HH:MM:SS` (nineteen characters, digits in the date and
time positions, the literal separators in between). -/
def matchesTimestampLayout (s : String) : Bool :=
  match s.data with
  | [y1, y2, y3, y4, a, m1, m2, b, d1, d2, c, h1, h2, e, i1, i2, f, s1, s2] =>
    y1.isDigit && y2.isDigit && y3.isDigit && y4.isDigit && a = '-' &&
    m1.isDigit && m2.isDigit && b = '-' && d1.isDigit && d2.isDigit &&
    c = ' ' && h1.isDigit && h2.isDigit && e = ':' && i1.isDigit &&
    i2.isDigit && f = ':' && s1.isDigit && s2.isDigit
  | _ => false

/-- The selection loop viewed on already-parsed (timestamp, value) pairs:
fold keeping the accumulator when the next point is strictly older, taking
the next point otherwise. -/
def selectLatest (l : List (Int × FloatRep)) (acc : Int × FloatRep) :
    Int × FloatRep :=
  l.foldl (fun a p => if p.1 < a.1 then a else p) acc

/-- Value of the `metric_name` label of a sample (empty when absent). -/
def metricNameLabel (s : Sample) : String :=
  ((s.labels.find? fun kv => kv.1 == "metric_name").map fun kv => kv.2).getD ("")

/-- Whether a scrape outcome is a success. -/
def isOkResult : Except ScrapeError Sample → Bool
  | .ok _ => true
  | .error _ => false

/-- Whether a sample belongs to metric `m`: its value sample (matched by
descriptor name) or one of its two meta samples (matched by descriptor name
plus the `metric_name` label). -/
def belongsTo (m : Metric) (s : Sample) : Bool :=
  s.desc == m.fqName ||
    ((s.desc == scrapeDurationFq || s.desc == scrapeSuccessFq) &&
      metricNameLabel s == m.name)

/-- The role of a sample, recognized by its descriptor name. -/
inductive SampleKind where
  | value
  | duration
  | success
  deriving DecidableEq, Repr

/-- Classify a sample by its descriptor name. -/
def kindOf (s : Sample) : SampleKind :=
  if s.desc == scrapeDurationFq then .duration
  else if s.desc == scrapeSuccessFq then .success
  else .value

/-- A sample collector over the fixed metric list, used by the concrete
witnesses below. -/
def sampleCollector : NASCollector := NewNASCollector ("nas-001") ("jp-east-1")

/-- The first tracked metric, used by the concrete witnesses below. -/
def fsMetric : Metric := ⟨"FreeStorageSpace", "nifcloud_nas_free_storage_space"⟩

theorem selectLatest_nil (acc : Int × FloatRep) : selectLatest [] acc = acc := rfl

theorem selectLatest_cons (h : Int × FloatRep) (t : List (Int × FloatRep))
    (acc : Int × FloatRep) :
    selectLatest (h :: t) acc = selectLatest t (if h.1 < acc.1 then acc else h) :=
  rfl

theorem selectLatest_append (l₁ l₂ : List (Int × FloatRep)) (acc : Int × FloatRep) :
    selectLatest (l₁ ++ l₂) acc = selectLatest l₂ (selectLatest l₁ acc) :=
  List.foldl_append ..

/-- If every point is strictly older than the accumulator, the fold keeps the
accumulator. -/
theorem selectLatest_all_lt : ∀ (l : List (Int × FloatRep)) (acc : Int × FloatRep),
    (∀ p ∈ l, p.1 < acc.1) → selectLatest l acc = acc := by
  intro l
  induction l with
  | nil => intro acc _; rfl
  | cons hd tl ih =>
    intro acc hall
    rw [selectLatest_cons, if_pos (hall hd (List.mem_cons_self _ _))]
    exact ih acc fun p hp => hall p (List.mem_cons_of_mem _ hp)

/-- The fold never exceeds an upper bound satisfied by the accumulator and by
every point. -/
theorem selectLatest_fst_le (B : Int) : ∀ (l : List (Int × FloatRep))
    (acc : Int × FloatRep), acc.1 ≤ B → (∀ p ∈ l, p.1 ≤ B) →
    (selectLatest l acc).1 ≤ B := by
  intro l
  induction l with
  | nil => intro acc hacc _; exact hacc
  | cons hd tl ih =>
    intro acc hacc hall
    rw [selectLatest_cons]
    by_cases hc : hd.1 < acc.1
    · rw [if_pos hc]
      exact ih acc hacc fun p hp => hall p (List.mem_cons_of_mem _ hp)
    · rw [if_neg hc]
      exact ih hd (hall hd (List.mem_cons_self _ _))
        fun p hp => hall p (List.mem_cons_of_mem _ hp)

/-- When some point is at or after the accumulator, the fold returns the last
point that attains the maximum timestamp: there is a decomposition
`l = l₁ ++ p :: l₂` with `p` maximal, everything after `p` strictly older,
and the fold equal to `p`. -/
theorem selectLatest_last_max : ∀ (l : List (Int × FloatRep))
    (acc : Int × FloatRep), (∃ p, p ∈ l ∧ acc.1 ≤ p.1) →
    ∃ l₁ p l₂, l = l₁ ++ p :: l₂ ∧ acc.1 ≤ p.1 ∧ (∀ q ∈ l, q.1 ≤ p.1) ∧
      (∀ q ∈ l₂, q.1 < p.1) ∧ selectLatest l acc = p := by
  intro l
  induction l with
  | nil =>
    rintro acc ⟨p, hp, -⟩
    exact absurd hp (List.not_mem_nil p)
  | cons hd tl ih =>
    rintro acc ⟨p, hp, hle⟩
    by_cases hc : hd.1 < acc.1
    · have hpt : p ∈ tl := by
        rcases List.mem_cons.mp hp with h | h
        · exact absurd hle (not_le.mpr (h ▸ hc))
        · exact h
      obtain ⟨l₁, p', l₂, hdec, hacc', hmax, hlast, hfold⟩ := ih acc ⟨p, hpt, hle⟩
      refine ⟨hd :: l₁, p', l₂, by rw [hdec]; rfl, hacc', ?_, hlast, ?_⟩
      · intro q hq
        rcases List.mem_cons.mp hq with h | h
        · exact h ▸ le_trans (le_of_lt hc) hacc'
        · exact hmax q h
      · rw [selectLatest_cons, if_pos hc]; exact hfold
    · have hacc_hd : acc.1 ≤ hd.1 := not_lt.mp hc
      by_cases hex : ∃ q, q ∈ tl ∧ hd.1 ≤ q.1
      · obtain ⟨l₁, p', l₂, hdec, hhd', hmax, hlast, hfold⟩ := ih hd hex
        refine ⟨hd :: l₁, p', l₂, by rw [hdec]; rfl, le_trans hacc_hd hhd', ?_,
          hlast, ?_⟩
        · intro q hq
          rcases List.mem_cons.mp hq with h | h
          · exact h ▸ hhd'
          · exact hmax q h
        · rw [selectLatest_cons, if_neg hc]; exact hfold
      · push_neg at hex
        have hall : ∀ q ∈ tl, q.1 < hd.1 := hex
        refine ⟨[], hd, tl, rfl, hacc_hd, ?_, hall, ?_⟩
        · intro q hq
          rcases List.mem_cons.mp hq with h | h
          · exact h ▸ le_refl _
          · exact le_of_lt (hall q h)
        · rw [selectLatest_cons, if_neg hc]
          exact selectLatest_all_lt tl hd hall

/-- When the accumulator is at or below `p`, everything before `p` is at or
below `p`, and everything after `p` is strictly older, the fold returns `p`
exactly: the last point attaining the maximum timestamp wins. -/
theorem selectLatest_append_last (l₁ l₂ : List (Int × FloatRep))
    (p : Int × FloatRep) (acc : Int × FloatRep) (hacc : acc.1 ≤ p.1)
    (h₁ : ∀ q ∈ l₁, q.1 ≤ p.1) (h₂ : ∀ q ∈ l₂, q.1 < p.1) :
    selectLatest (l₁ ++ p :: l₂) acc = p := by
  rw [selectLatest_append]
  have hb : (selectLatest l₁ acc).1 ≤ p.1 := selectLatest_fst_le p.1 l₁ acc hacc h₁
  rw [selectLatest_cons, if_neg (not_lt.mpr hb)]
  exact selectLatest_all_lt l₂ p h₂

/-- When every data point's timestamp and sum parse, the imperative selection
loop succeeds and computes the same answer as the pure fold on the parsed
pairs. -/
theorem scrapeLoop_eq_selectLatest : ∀ (l : List Datapoint) (lat : Int)
    (lv : FloatRep),
    (∀ dp ∈ l, (parseRFC3339 dp.timestamp).isSome = true ∧
      (parseFloat dp.sum).isSome = true) →
    scrapeLoop l lat lv =
      .ok (selectLatest (l.map fun dp => (tsOf dp, valOf dp)) (lat, lv)).2 := by
  intro l
  induction l with
  | nil => intro lat lv _; rfl
  | cons dp tl ih =>
    intro lat lv hall
    obtain ⟨hts, hsum⟩ := hall dp (List.mem_cons_self _ _)
    obtain ⟨t₀, ht₀⟩ := Option.isSome_iff_exists.mp hts
    obtain ⟨v₀, hv₀⟩ := Option.isSome_iff_exists.mp hsum
    have htsOf : tsOf dp = t₀ := by rw [tsOf, ht₀]; rfl
    have hvalOf : valOf dp = v₀ := by rw [valOf, hv₀]; rfl
    have htl : ∀ q ∈ tl, (parseRFC3339 q.timestamp).isSome = true ∧
        (parseFloat q.sum).isSome = true :=
      fun q hq => hall q (List.mem_cons_of_mem _ hq)
    rw [List.map_cons, selectLatest_cons]
    dsimp only
    rw [htsOf, hvalOf]
    by_cases hc : t₀ < lat
    · rw [if_pos hc]
      show (match parseRFC3339 dp.timestamp with
        | none => Except.error (ScrapeError.parseTimestamp dp.timestamp)
        | some timestamp =>
          if timestamp < lat then scrapeLoop tl lat lv
          else
            match parseFloat dp.sum with
            | none => Except.error (ScrapeError.parseSum dp.sum)
            | some v => scrapeLoop tl timestamp v) = _
      rw [ht₀]
      show (if t₀ < lat then scrapeLoop tl lat lv else _) = _
      rw [if_pos hc]
      exact ih lat lv htl
    · rw [if_neg hc]
      show (match parseRFC3339 dp.timestamp with
        | none => Except.error (ScrapeError.parseTimestamp dp.timestamp)
        | some timestamp =>
          if timestamp < lat then scrapeLoop tl lat lv
          else
            match parseFloat dp.sum with
            | none => Except.error (ScrapeError.parseSum dp.sum)
            | some v => scrapeLoop tl timestamp v) = _
      rw [ht₀]
      show (if t₀ < lat then scrapeLoop tl lat lv else _) = _
      rw [if_neg hc, hv₀]
      exact ih t₀ v₀ htl

theorem scrapeLoop_cons (dp : Datapoint) (rest : List Datapoint) (lat : Int)
    (lv : FloatRep) :
    scrapeLoop (dp :: rest) lat lv =
      match parseRFC3339 dp.timestamp with
      | none => .error (.parseTimestamp dp.timestamp)
      | some timestamp =>
        if timestamp < lat then scrapeLoop rest lat lv
        else
          match parseFloat dp.sum with
          | none => .error (.parseSum dp.sum)
          | some v => scrapeLoop rest timestamp v := rfl

/-- For a nonempty response, `scrape` is the selection loop followed by the
value-sample emission. -/
theorem scrape_eq_loop (n : NASCollector) (m : Metric) (dps : List Datapoint)
    (hne : dps ≠ []) :
    n.scrape m (.ok dps) =
      match scrapeLoop dps goZeroTimeNanos zeroFloat with
      | .error e => .error e
      | .ok v => .ok (valueSample n m v) := by
  cases dps with
  | nil => exact absurd rfl hne
  | cons d r => rfl

/-- C1 (amended): for a nonempty response whose timestamps all parse, are
pairwise distinct and are not before Go's zero time, and whose values all
parse, the emitted value is the value of the data point with the maximum
timestamp, whatever the order of the data points; values are never averaged
or summed. -/
theorem scrape_selects_latest (n : NASCollector) (m : Metric)
    (dps : List Datapoint)
    (hne : dps ≠ [])
    (hparse : ∀ dp ∈ dps, (parseRFC3339 dp.timestamp).isSome = true ∧
      (parseFloat dp.sum).isSome = true)
    (hzero : ∀ dp ∈ dps, goZeroTimeNanos ≤ tsOf dp)
    (hdist : dps.Pairwise fun a b => tsOf a ≠ tsOf b) :
    ∃ dp ∈ dps, (∀ q ∈ dps, tsOf q ≤ tsOf dp) ∧
      n.scrape m (.ok dps) = .ok (valueSample n m (valOf dp)) := by
  obtain ⟨d, rest, rfl⟩ := List.exists_cons_of_ne_nil hne
  have hmem0 : (tsOf d, valOf d) ∈ (d :: rest).map fun dp => (tsOf dp, valOf dp) :=
    List.mem_map_of_mem _ (List.mem_cons_self _ _)
  obtain ⟨l₁, p, l₂, hdec, hacc, hmax, hlast, hfold⟩ :=
    selectLatest_last_max ((d :: rest).map fun dp => (tsOf dp, valOf dp))
      (goZeroTimeNanos, zeroFloat)
      ⟨(tsOf d, valOf d), hmem0, hzero d (List.mem_cons_self _ _)⟩
  have hpmem : p ∈ (d :: rest).map fun dp => (tsOf dp, valOf dp) := by
    rw [hdec]
    exact List.mem_append_right _ (List.mem_cons_self _ _)
  obtain ⟨dp, hdp, hdpeq⟩ := List.mem_map.mp hpmem
  refine ⟨dp, hdp, ?_, ?_⟩
  · intro q hq
    have := hmax (tsOf q, valOf q) (List.mem_map_of_mem _ hq)
    rw [← hdpeq] at this
    exact this
  · rw [scrape_eq_loop n m _ (List.cons_ne_nil d rest),
      scrapeLoop_eq_selectLatest _ _ _ hparse, hfold, ← hdpeq]

/-- C1 counterexample: a single data point timestamped midnight of January 1
of year 1 at offset +09:00 parses fine (Go's RFC 3339 parsing accepts it) but
denotes an instant strictly before Go's zero time, so the selection loop
skips it and the zero value is emitted instead of the data point's value
42. -/
theorem scrape_selects_latest_cex :
    sampleCollector.scrape fsMetric (.ok [⟨"0001-01-01T00:00:00+09:00", "42"⟩])
      = .ok (valueSample sampleCollector fsMetric zeroFloat) ∧
    (parseRFC3339 ("0001-01-01T00:00:00+09:00")).isSome = true ∧
    parseFloat ("42") = some (FloatRep.finite false 42 0) ∧
    FloatRep.toRat zeroFloat ≠ FloatRep.toRat (FloatRep.finite false 42 0) := by
  refine ⟨rfl, by decide, by decide, ?_⟩
  norm_num [FloatRep.toRat, zeroFloat]

theorem scrape_selects_latest_witness :
    (([⟨"2024-01-02T03:04:05Z", "1.5"⟩, ⟨"2024-01-02T03:04:07Z", "2.5"⟩,
        ⟨"2024-01-02T03:04:06Z", "3.5"⟩] : List Datapoint) ≠ []) ∧
    (∃ dp ∈ ([⟨"2024-01-02T03:04:05Z", "1.5"⟩, ⟨"2024-01-02T03:04:07Z", "2.5"⟩,
        ⟨"2024-01-02T03:04:06Z", "3.5"⟩] : List Datapoint),
      (∀ q ∈ ([⟨"2024-01-02T03:04:05Z", "1.5"⟩, ⟨"2024-01-02T03:04:07Z", "2.5"⟩,
        ⟨"2024-01-02T03:04:06Z", "3.5"⟩] : List Datapoint), tsOf q ≤ tsOf dp) ∧
      sampleCollector.scrape fsMetric
          (.ok [⟨"2024-01-02T03:04:05Z", "1.5"⟩, ⟨"2024-01-02T03:04:07Z", "2.5"⟩,
            ⟨"2024-01-02T03:04:06Z", "3.5"⟩])
        = .ok (valueSample sampleCollector fsMetric (valOf dp))) :=
  ⟨by decide, scrape_selects_latest sampleCollector fsMetric _
    (by decide) (by decide) (by decide) (by decide)⟩

/-- C2 (amended): when several data points share the strictly latest
timestamp, the value kept is the one of the last such data point seen in
response order — `timestamp.Before(*latest)` is strict, so a tie with the
running latest is not skipped and overwrites the held value. -/
theorem scrape_tie_last_wins (n : NASCollector) (m : Metric)
    (l₁ l₂ : List Datapoint) (dp : Datapoint)
    (hparse : ∀ q ∈ l₁ ++ dp :: l₂, (parseRFC3339 q.timestamp).isSome = true ∧
      (parseFloat q.sum).isSome = true)
    (hzero : goZeroTimeNanos ≤ tsOf dp)
    (hmax : ∀ q ∈ l₁ ++ dp :: l₂, tsOf q ≤ tsOf dp)
    (hlast : ∀ q ∈ l₂, tsOf q < tsOf dp) :
    n.scrape m (.ok (l₁ ++ dp :: l₂)) = .ok (valueSample n m (valOf dp)) := by
  have hne : l₁ ++ dp :: l₂ ≠ [] := by
    intro h
    exact absurd (h ▸ List.mem_append_right l₁ (List.mem_cons_self dp l₂))
      (List.not_mem_nil dp)
  rw [scrape_eq_loop n m _ hne, scrapeLoop_eq_selectLatest _ _ _ hparse]
  rw [List.map_append, List.map_cons]
  rw [selectLatest_append_last _ _ _ _ hzero ?h₁ ?h₂]
  case h₁ =>
    intro q hq
    obtain ⟨q₀, hq₀, rfl⟩ := List.mem_map.mp hq
    exact hmax q₀ (List.mem_append_left _ hq₀)
  case h₂ =>
    intro q hq
    obtain ⟨q₀, hq₀, rfl⟩ := List.mem_map.mp hq
    exact hlast q₀ hq₀

/-- C2 counterexample: two data points share the same timestamp; the emitted
value is the second one's (value 2), not the first seen (value 1). -/
theorem scrape_tie_last_wins_cex :
    sampleCollector.scrape fsMetric
        (.ok [⟨"2024-01-02T03:04:05Z", "1"⟩, ⟨"2024-01-02T03:04:05Z", "2"⟩])
      = .ok (valueSample sampleCollector fsMetric (FloatRep.finite false 2 0)) ∧
    parseFloat ("1") = some (FloatRep.finite false 1 0) ∧
    FloatRep.toRat (FloatRep.finite false 2 0) ≠ FloatRep.toRat (FloatRep.finite false 1 0) := by
  refine ⟨rfl, by decide, ?_⟩
  norm_num [FloatRep.toRat]

theorem scrape_tie_last_wins_witness :
    (goZeroTimeNanos ≤ tsOf ⟨"2024-01-02T03:04:05Z", "2"⟩) ∧
    sampleCollector.scrape fsMetric
        (.ok ([⟨"2024-01-02T03:04:05Z", "1"⟩] ++ ⟨"2024-01-02T03:04:05Z", "2"⟩ :: []))
      = .ok (valueSample sampleCollector fsMetric
          (valOf ⟨"2024-01-02T03:04:05Z", "2"⟩)) :=
  ⟨by decide, scrape_tie_last_wins sampleCollector fsMetric _ _ _
    (by decide) (by decide) (by decide) (by decide)⟩

/-- Under parse hypotheses limited to the prefix, the loop fails with a parse
failure as soon as it reaches a data point whose sum does not parse and whose
timestamp is not strictly before the running latest. -/
theorem scrapeLoop_error_of_bad_latest_sum : ∀ (l₁ : List Datapoint)
    (dp : Datapoint) (l₂ : List Datapoint) (lat : Int) (lv : FloatRep),
    (∀ q ∈ l₁, (parseRFC3339 q.timestamp).isSome = true) →
    (∀ q ∈ l₁, tsOf q ≤ tsOf dp) →
    lat ≤ tsOf dp →
    (parseRFC3339 dp.timestamp).isSome = true →
    parseFloat dp.sum = none →
    ∃ e, scrapeLoop (l₁ ++ dp :: l₂) lat lv = .error e ∧
      e.isParseFailure = true := by
  intro l₁
  induction l₁ with
  | nil =>
    intro dp l₂ lat lv _ _ hlat hts hbad
    obtain ⟨t₀, ht₀⟩ := Option.isSome_iff_exists.mp hts
    have hts₀ : tsOf dp = t₀ := by rw [tsOf, ht₀]; rfl
    refine ⟨.parseSum dp.sum, ?_, rfl⟩
    rw [List.nil_append, scrapeLoop_cons, ht₀]
    dsimp only
    rw [if_neg (not_lt.mpr (hts₀ ▸ hlat)), hbad]
  | cons q tl ih =>
    intro dp l₂ lat lv hparse hle hlat hts hbad
    obtain ⟨tq, htq⟩ := Option.isSome_iff_exists.mp
      (hparse q (List.mem_cons_self _ _))
    have htsq : tsOf q = tq := by rw [tsOf, htq]; rfl
    have hparse' : ∀ r ∈ tl, (parseRFC3339 r.timestamp).isSome = true :=
      fun r hr => hparse r (List.mem_cons_of_mem _ hr)
    have hle' : ∀ r ∈ tl, tsOf r ≤ tsOf dp :=
      fun r hr => hle r (List.mem_cons_of_mem _ hr)
    rw [List.cons_append, scrapeLoop_cons, htq]
    dsimp only
    by_cases hc : tq < lat
    · rw [if_pos hc]
      exact ih dp l₂ lat lv hparse' hle' hlat hts hbad
    · rw [if_neg hc]
      cases hpv : parseFloat q.sum with
      | none => exact ⟨.parseSum q.sum, rfl, rfl⟩
      | some v =>
        exact ih dp l₂ tq v hparse' hle'
          (htsq ▸ hle q (List.mem_cons_self _ _)) hts hbad

/-- A data point whose timestamp does not parse always makes the loop fail
with a parse failure (the timestamp of every data point is parsed before the
skip test, so position and ordering do not matter; an earlier unparsable sum
also yields a parse failure). -/
theorem scrapeLoop_error_of_bad_timestamp : ∀ (l : List Datapoint) (lat : Int)
    (lv : FloatRep),
    (∃ dp ∈ l, parseRFC3339 dp.timestamp = none) →
    ∃ e, scrapeLoop l lat lv = .error e ∧ e.isParseFailure = true := by
  intro l
  induction l with
  | nil =>
    rintro lat lv ⟨dp, hmem, -⟩
    exact absurd hmem (List.not_mem_nil _)
  | cons hd tl ih =>
    rintro lat lv ⟨dp, hmem, hbad⟩
    rw [scrapeLoop_cons]
    cases hph : parseRFC3339 hd.timestamp with
    | none => exact ⟨.parseTimestamp hd.timestamp, rfl, rfl⟩
    | some t₀ =>
      have hdp_tl : dp ∈ tl := by
        rcases List.mem_cons.mp hmem with h | h
        · rw [h, hph] at hbad; cases hbad
        · exact h
      dsimp only
      by_cases hc : t₀ < lat
      · rw [if_pos hc]
        exact ih lat lv ⟨dp, hdp_tl, hbad⟩
      · rw [if_neg hc]
        cases hpv : parseFloat hd.sum with
        | none => exact ⟨.parseSum hd.sum, rfl, rfl⟩
        | some v => exact ih t₀ v ⟨dp, hdp_tl, hbad⟩

/-- C3 (amended): a malformed timestamp string on any data point, whatever
its position, makes the fetch fail with a parse failure; a malformed numeric
value makes the fetch fail when its data point is actually scanned — in
particular whenever it carries the latest timestamp (at or after the zero
time, with the earlier points' timestamps parsing and at or below it).
A malformed value on a data point strictly older than an already-seen newer
point is skipped without being parsed and causes no failure. -/
theorem scrape_parse_failure :
    (∀ (n : NASCollector) (m : Metric) (dps : List Datapoint),
      (∃ dp ∈ dps, parseRFC3339 dp.timestamp = none) →
      ∃ e, n.scrape m (.ok dps) = .error e ∧ e.isParseFailure = true) ∧
    (∀ (n : NASCollector) (m : Metric) (l₁ l₂ : List Datapoint) (dp : Datapoint),
      (∀ q ∈ l₁, (parseRFC3339 q.timestamp).isSome = true) →
      (∀ q ∈ l₁, tsOf q ≤ tsOf dp) →
      goZeroTimeNanos ≤ tsOf dp →
      (parseRFC3339 dp.timestamp).isSome = true →
      parseFloat dp.sum = none →
      ∃ e, n.scrape m (.ok (l₁ ++ dp :: l₂)) = .error e ∧
        e.isParseFailure = true) := by
  constructor
  · intro n m dps hbad
    obtain ⟨dp, hmem, hnone⟩ := hbad
    obtain ⟨e, he, hpf⟩ :=
      scrapeLoop_error_of_bad_timestamp dps goZeroTimeNanos zeroFloat
        ⟨dp, hmem, hnone⟩
    refine ⟨e, ?_, hpf⟩
    rw [scrape_eq_loop n m dps (List.ne_nil_of_mem hmem), he]
  · intro n m l₁ l₂ dp hparse hle hzero hts hbad
    obtain ⟨e, he, hpf⟩ :=
      scrapeLoop_error_of_bad_latest_sum l₁ dp l₂ goZeroTimeNanos zeroFloat
        hparse hle hzero hts hbad
    have hne : l₁ ++ dp :: l₂ ≠ [] := by
      intro h
      exact absurd (h ▸ List.mem_append_right l₁ (List.mem_cons_self dp l₂))
        (List.not_mem_nil dp)
    refine ⟨e, ?_, hpf⟩
    rw [scrape_eq_loop n m _ hne, he]

/-- C3 counterexample: the second data point's value `oops` is malformed, but
its timestamp is strictly older than the first point's, so the loop skips it
before parsing the value and the fetch succeeds with value 1.5 instead of
failing with a parse failure. -/
theorem scrape_parse_failure_cex :
    sampleCollector.scrape fsMetric
        (.ok [⟨"2024-01-01T00:00:10Z", "1.5"⟩, ⟨"2024-01-01T00:00:05Z", "oops"⟩])
      = .ok (valueSample sampleCollector fsMetric (FloatRep.finite false 15 (-1))) ∧
    parseFloat ("oops") = none :=
  ⟨rfl, by decide⟩

theorem scrape_parse_failure_witness :
    ((∃ dp ∈ ([⟨"garbage", "1"⟩] : List Datapoint),
        parseRFC3339 dp.timestamp = none) ∧
      (∃ e, sampleCollector.scrape fsMetric (.ok [⟨"garbage", "1"⟩])
        = .error e ∧ e.isParseFailure = true)) ∧
    ((parseFloat ("oops") = none) ∧
      (∃ e, sampleCollector.scrape fsMetric
          (.ok ([⟨"2024-01-01T00:00:05Z", "1"⟩] ++
            ⟨"2024-01-01T00:00:10Z", "oops"⟩ :: []))
        = .error e ∧ e.isParseFailure = true)) :=
  ⟨⟨by decide, scrape_parse_failure.1 sampleCollector fsMetric _ (by decide)⟩,
    ⟨by decide, scrape_parse_failure.2 sampleCollector fsMetric _ _ _
      (by decide) (by decide) (by decide) (by decide) (by decide)⟩⟩

theorem metricNameLabel_mk (d nm : String) (v : FloatRep) :
    metricNameLabel ⟨d, [("metric_name", nm)], v⟩ = nm := rfl

theorem metricNameLabel_durationSample (nm : String) (d : FloatRep) :
    metricNameLabel (durationSample nm d) = nm := rfl

theorem metricNameLabel_successSample (nm : String) (s : FloatRep) :
    metricNameLabel (successSample nm s) = nm := rfl

theorem metricNameLabel_valueSample (n : NASCollector) (m : Metric)
    (v : FloatRep) : metricNameLabel (valueSample n m v) = "" := rfl

theorem succFq_beq_durFq : (scrapeSuccessFq == scrapeDurationFq) = false := by decide

theorem durFq_beq_succFq : (scrapeDurationFq == scrapeSuccessFq) = false := by decide

/-- No tracked metric's exposition name collides with the meta-metric
names. -/
theorem metrics_fq_ne_meta : ∀ m ∈ metrics,
    m.fqName ≠ scrapeDurationFq ∧ m.fqName ≠ scrapeSuccessFq := by decide

/-- Distinct tracked metrics have distinct vendor names and distinct
exposition names. -/
theorem metrics_pairwise_distinct : ∀ m ∈ metrics, ∀ q ∈ metrics,
    q = m ∨ (q.fqName ≠ m.fqName ∧ q.name ≠ m.name) := by decide

theorem metricNames_nodup : metricNames.Nodup := by decide

theorem collect_ok (n : NASCollector) (m : Metric)
    (resp : Except String (List Datapoint)) (dur : FloatRep) (s : Sample)
    (h : n.scrape m resp = .ok s) :
    n.collect m resp dur =
      [s, durationSample m.name dur, successSample m.name oneFloat] := by
  unfold NASCollector.collect
  rw [h]

theorem collect_error (n : NASCollector) (m : Metric)
    (resp : Except String (List Datapoint)) (dur : FloatRep) (e : ScrapeError)
    (h : n.scrape m resp = .error e) :
    n.collect m resp dur =
      [durationSample m.name dur, successSample m.name zeroFloat] := by
  unfold NASCollector.collect
  rw [h]

/-- A successful scrape only ever emits the metric's value sample. -/
theorem scrape_ok_shape (n : NASCollector) (m : Metric)
    (resp : Except String (List Datapoint)) (s : Sample)
    (h : n.scrape m resp = .ok s) : ∃ v, s = valueSample n m v := by
  cases resp with
  | error e => exact Except.noConfusion h
  | ok dps =>
    cases dps with
    | nil => exact Except.noConfusion h
    | cons d r =>
      rw [scrape_eq_loop n m _ (List.cons_ne_nil d r)] at h
      cases hl : scrapeLoop (d :: r) goZeroTimeNanos zeroFloat with
      | error e => rw [hl] at h; exact Except.noConfusion h
      | ok v =>
        rw [hl] at h
        injection h with h'
        exact ⟨v, h'.symm⟩

/-- The metric-name labels of the duration samples of one `collect` call. -/
theorem collect_duration_names (n : NASCollector) (m : Metric)
    (resp : Except String (List Datapoint)) (dur : FloatRep)
    (hm : m.fqName ≠ scrapeDurationFq) :
    ((n.collect m resp dur).filter fun s => s.desc == scrapeDurationFq).map
      metricNameLabel = [m.name] := by
  have hfq : (m.fqName == scrapeDurationFq) = false := by
    exact beq_eq_false_iff_ne.mpr hm
  cases h : n.scrape m resp with
  | ok s =>
    obtain ⟨v, rfl⟩ := scrape_ok_shape n m resp s h
    rw [collect_ok n m resp dur _ h]
    simp [valueSample, durationSample, successSample, List.filter, hfq,
      succFq_beq_durFq, metricNameLabel_mk]
  | error e =>
    rw [collect_error n m resp dur e h]
    simp [durationSample, successSample, List.filter, succFq_beq_durFq,
      metricNameLabel_mk]

/-- The metric-name labels of the success samples of one `collect` call. -/
theorem collect_success_names (n : NASCollector) (m : Metric)
    (resp : Except String (List Datapoint)) (dur : FloatRep)
    (hm : m.fqName ≠ scrapeSuccessFq) :
    ((n.collect m resp dur).filter fun s => s.desc == scrapeSuccessFq).map
      metricNameLabel = [m.name] := by
  have hfq : (m.fqName == scrapeSuccessFq) = false := by
    exact beq_eq_false_iff_ne.mpr hm
  cases h : n.scrape m resp with
  | ok s =>
    obtain ⟨v, rfl⟩ := scrape_ok_shape n m resp s h
    rw [collect_ok n m resp dur _ h]
    simp [valueSample, durationSample, successSample, List.filter, hfq,
      durFq_beq_succFq, metricNameLabel_mk]
  | error e =>
    rw [collect_error n m resp dur e h]
    simp [durationSample, successSample, List.filter, durFq_beq_succFq,
      metricNameLabel_mk]

theorem collectSamples_cons (n : NASCollector) (m : Metric) (ms : List Metric)
    (resps : String → Except String (List Datapoint))
    (durs : String → FloatRep) :
    collectSamples n (m :: ms) resps durs =
      n.collect m (resps m.name) (durs m.name) ++
        collectSamples n ms resps durs := by
  unfold collectSamples
  rw [List.map_cons, List.flatten_cons]

/-- Duration-label bookkeeping over a metric list: one duration sample per
metric, labelled with that metric's name, in list order. -/
theorem collectSamples_duration_names (n : NASCollector) :
    ∀ (ms : List Metric) (resps : String → Except String (List Datapoint))
      (durs : String → FloatRep),
    (∀ m ∈ ms, m.fqName ≠ scrapeDurationFq) →
    ((collectSamples n ms resps durs).filter
        fun s => s.desc == scrapeDurationFq).map metricNameLabel =
      ms.map fun m => m.name := by
  intro ms
  induction ms with
  | nil => intro resps durs _; rfl
  | cons m tl ih =>
    intro resps durs hall
    rw [collectSamples_cons, List.filter_append, List.map_append,
      collect_duration_names n m _ _ (hall m (List.mem_cons_self _ _)),
      ih resps durs fun q hq => hall q (List.mem_cons_of_mem _ hq),
      List.map_cons]
    rfl

/-- Success-label bookkeeping over a metric list. -/
theorem collectSamples_success_names (n : NASCollector) :
    ∀ (ms : List Metric) (resps : String → Except String (List Datapoint))
      (durs : String → FloatRep),
    (∀ m ∈ ms, m.fqName ≠ scrapeSuccessFq) →
    ((collectSamples n ms resps durs).filter
        fun s => s.desc == scrapeSuccessFq).map metricNameLabel =
      ms.map fun m => m.name := by
  intro ms
  induction ms with
  | nil => intro resps durs _; rfl
  | cons m tl ih =>
    intro resps durs hall
    rw [collectSamples_cons, List.filter_append, List.map_append,
      collect_success_names n m _ _ (hall m (List.mem_cons_self _ _)),
      ih resps durs fun q hq => hall q (List.mem_cons_of_mem _ hq),
      List.map_cons]
    rfl

/-- C4: on every collection pass, whatever the fetch outcomes, the
metric-name labels of the emitted duration samples and of the emitted
success samples are each a permutation of the full fixed metric-name list,
which has no duplicates: every metric gets exactly one duration sample and
one success sample, none is skipped or dropped.  (Cross-metric emission
order on the channel is nondeterministic, so the statement is
order-insensitive.) -/
theorem collect_pass_meta_names (instanceId region : String)
    (resps : String → Except String (List Datapoint))
    (durs : String → FloatRep) :
    List.Perm ((((NewNASCollector instanceId region).Collect resps durs).filter
        fun s => s.desc == scrapeDurationFq).map metricNameLabel) metricNames ∧
    List.Perm ((((NewNASCollector instanceId region).Collect resps durs).filter
        fun s => s.desc == scrapeSuccessFq).map metricNameLabel) metricNames ∧
    metricNames.Nodup := by
  refine ⟨?_, ?_, metricNames_nodup⟩
  · have h := collectSamples_duration_names (NewNASCollector instanceId region)
      metrics resps durs fun m hm => (metrics_fq_ne_meta m hm).1
    exact h ▸ List.Perm.refl _
  · have h := collectSamples_success_names (NewNASCollector instanceId region)
      metrics resps durs fun m hm => (metrics_fq_ne_meta m hm).2
    exact h ▸ List.Perm.refl _

/-- C5: for every metric of the fixed set, the success gauge is 1 exactly
when the fetch succeeded and 0 exactly when it failed; on failure no value
sample for the metric is emitted that cycle, and on success exactly one
value sample is emitted, labelled with the instance identifier and the
region. -/
theorem collect_success_flag (n : NASCollector) (m : Metric)
    (resp : Except String (List Datapoint)) (dur : FloatRep)
    (hm : m ∈ metrics) :
    (isOkResult (n.scrape m resp) = true →
      (∃ v, (n.collect m resp dur).filter (fun s => s.desc == m.fqName) =
        [⟨m.fqName, [("instance", n.nasInstanceIdentifier),
          ("region", n.region)], v⟩]) ∧
      (n.collect m resp dur).filter (fun s => s.desc == scrapeSuccessFq) =
        [successSample m.name oneFloat]) ∧
    (isOkResult (n.scrape m resp) = false →
      (n.collect m resp dur).filter (fun s => s.desc == m.fqName) = [] ∧
      (n.collect m resp dur).filter (fun s => s.desc == scrapeSuccessFq) =
        [successSample m.name zeroFloat]) := by
  obtain ⟨hd, hs⟩ := metrics_fq_ne_meta m hm
  have hdur : (scrapeDurationFq == m.fqName) = false :=
    beq_eq_false_iff_ne.mpr (Ne.symm hd)
  have hsucc : (scrapeSuccessFq == m.fqName) = false :=
    beq_eq_false_iff_ne.mpr (Ne.symm hs)
  have hfq : (m.fqName == scrapeSuccessFq) = false := beq_eq_false_iff_ne.mpr hs
  cases h : n.scrape m resp with
  | ok s =>
    obtain ⟨v, rfl⟩ := scrape_ok_shape n m resp s h
    rw [collect_ok n m resp dur _ h]
    refine ⟨fun _ => ⟨⟨v, ?_⟩, ?_⟩, fun hfalse => by cases hfalse⟩
    · simp [valueSample, durationSample, successSample, List.filter, hdur, hsucc]
    · simp [valueSample, durationSample, successSample, List.filter, hfq,
        durFq_beq_succFq]
  | error e =>
    rw [collect_error n m resp dur e h]
    refine ⟨fun htrue => Bool.noConfusion htrue, fun _ => ⟨?_, ?_⟩⟩
    · simp [durationSample, successSample, List.filter, hdur, hsucc]
    · simp [durationSample, successSample, List.filter, durFq_beq_succFq]

theorem collect_success_flag_witness :
    (fsMetric ∈ metrics) ∧
    ((isOkResult (sampleCollector.scrape fsMetric
        (.ok [⟨"2024-01-02T03:04:05Z", "1.5"⟩])) = true →
      (∃ v, (sampleCollector.collect fsMetric
          (.ok [⟨"2024-01-02T03:04:05Z", "1.5"⟩]) (FloatRep.finite false 5 (-2))).filter
          (fun s => s.desc == fsMetric.fqName) =
        [⟨fsMetric.fqName, [("instance", sampleCollector.nasInstanceIdentifier),
          ("region", sampleCollector.region)], v⟩]) ∧
      (sampleCollector.collect fsMetric
          (.ok [⟨"2024-01-02T03:04:05Z", "1.5"⟩]) (FloatRep.finite false 5 (-2))).filter
          (fun s => s.desc == scrapeSuccessFq) =
        [successSample fsMetric.name oneFloat]) ∧
    (isOkResult (sampleCollector.scrape fsMetric
        (.ok [⟨"2024-01-02T03:04:05Z", "1.5"⟩])) = false →
      (sampleCollector.collect fsMetric
          (.ok [⟨"2024-01-02T03:04:05Z", "1.5"⟩]) (FloatRep.finite false 5 (-2))).filter
          (fun s => s.desc == fsMetric.fqName) = [] ∧
      (sampleCollector.collect fsMetric
          (.ok [⟨"2024-01-02T03:04:05Z", "1.5"⟩]) (FloatRep.finite false 5 (-2))).filter
          (fun s => s.desc == scrapeSuccessFq) =
        [successSample fsMetric.name zeroFloat])) :=
  ⟨by decide, collect_success_flag sampleCollector fsMetric
    (.ok [⟨"2024-01-02T03:04:05Z", "1.5"⟩]) (FloatRep.finite false 5 (-2)) (by decide)⟩

/-- C6: a response with zero data points makes the fetch fail with the
no-data error and the metric's success gauge is emitted as 0; and every
other metric of the same pass is unaffected — for response assignments that
agree outside one metric name, every metric with a different name collects
exactly the same samples. -/
theorem scrape_no_data :
    (∀ (n : NASCollector) (m : Metric) (dur : FloatRep),
      n.scrape m (.ok []) = .error .noData ∧
      n.collect m (.ok []) dur =
        [durationSample m.name dur, successSample m.name zeroFloat]) ∧
    (∀ (n : NASCollector)
      (resps resps' : String → Except String (List Datapoint))
      (durs : String → FloatRep) (mname : String),
      (∀ name, name ≠ mname → resps' name = resps name) →
      ∀ m ∈ n.metrics, m.name ≠ mname →
        n.collect m (resps' m.name) (durs m.name) =
          n.collect m (resps m.name) (durs m.name)) := by
  constructor
  · intro n m dur
    exact ⟨rfl, rfl⟩
  · intro n resps resps' durs mname hagree m _ hne
    rw [hagree m.name hne]

theorem scrape_no_data_witness :
    ((∀ name, name ≠ "FreeStorageSpace" →
        (fun _ => (.ok [⟨"2024-01-02T03:04:05Z", "7"⟩] :
          Except String (List Datapoint))) name =
        (fun _ => (.ok [⟨"2024-01-02T03:04:05Z", "7"⟩] :
          Except String (List Datapoint))) name) ∧
      (⟨"UsedStorageSpace", "nifcloud_nas_used_storage_space"⟩ : Metric) ∈
        sampleCollector.metrics ∧
      (⟨"UsedStorageSpace", "nifcloud_nas_used_storage_space"⟩ : Metric).name ≠
        "FreeStorageSpace") ∧
    sampleCollector.collect ⟨"UsedStorageSpace", "nifcloud_nas_used_storage_space"⟩
        ((fun _ => (.ok [⟨"2024-01-02T03:04:05Z", "7"⟩] :
          Except String (List Datapoint))) ("UsedStorageSpace"))
        ((fun _ => FloatRep.finite false 1 (-2)) ("UsedStorageSpace")) =
      sampleCollector.collect ⟨"UsedStorageSpace", "nifcloud_nas_used_storage_space"⟩
        ((fun _ => (.ok [⟨"2024-01-02T03:04:05Z", "7"⟩] :
          Except String (List Datapoint))) ("UsedStorageSpace"))
        ((fun _ => FloatRep.finite false 1 (-2)) ("UsedStorageSpace")) :=
  ⟨⟨fun _ _ => rfl, by decide, by decide⟩,
    scrape_no_data.2 sampleCollector
      (fun _ => .ok [⟨"2024-01-02T03:04:05Z", "7"⟩])
      (fun _ => .ok [⟨"2024-01-02T03:04:05Z", "7"⟩])
      (fun _ => (FloatRep.finite false 1 (-2))) ("FreeStorageSpace") (fun _ _ => rfl)
      ⟨"UsedStorageSpace", "nifcloud_nas_used_storage_space"⟩
      (by decide) (by decide)⟩

/-- A different metric's `collect` contributes no sample belonging to `m`. -/
theorem collect_belongs_other (n : NASCollector) (m q : Metric)
    (resp : Except String (List Datapoint)) (dur : FloatRep)
    (hfq : q.fqName ≠ m.fqName) (hname : q.name ≠ m.name)
    (hqd : q.fqName ≠ scrapeDurationFq) (hqs : q.fqName ≠ scrapeSuccessFq)
    (hmd : m.fqName ≠ scrapeDurationFq) (hms : m.fqName ≠ scrapeSuccessFq) :
    (n.collect q resp dur).filter (belongsTo m) = [] := by
  have h1 : (q.fqName == m.fqName) = false := beq_eq_false_iff_ne.mpr hfq
  have h2 : (q.name == m.name) = false := beq_eq_false_iff_ne.mpr hname
  have h3 : (q.fqName == scrapeDurationFq) = false := beq_eq_false_iff_ne.mpr hqd
  have h4 : (q.fqName == scrapeSuccessFq) = false := beq_eq_false_iff_ne.mpr hqs
  have h5 : (scrapeDurationFq == m.fqName) = false :=
    beq_eq_false_iff_ne.mpr (Ne.symm hmd)
  have h6 : (scrapeSuccessFq == m.fqName) = false :=
    beq_eq_false_iff_ne.mpr (Ne.symm hms)
  cases h : n.scrape q resp with
  | ok s =>
    obtain ⟨v, rfl⟩ := scrape_ok_shape n q resp s h
    rw [collect_ok n q resp dur _ h]
    simp [belongsTo, List.filter, valueSample, durationSample, successSample,
      metricNameLabel_mk, metricNameLabel_valueSample, h1, h2, h3, h4, h5, h6,
      durFq_beq_succFq, succFq_beq_durFq]
  | error e =>
    rw [collect_error n q resp dur e h]
    simp [belongsTo, List.filter, durationSample, successSample,
      metricNameLabel_mk, h2, h5, h6, durFq_beq_succFq, succFq_beq_durFq]

/-- Two collection passes whose inputs agree on metric `m` produce the same
samples belonging to `m`, whatever the other metrics' responses and
durations are. -/
theorem collectSamples_belongs_congr (n : NASCollector) (m : Metric) :
    ∀ (ms : List Metric)
      (resps resps' : String → Except String (List Datapoint))
      (durs durs' : String → FloatRep),
    (∀ q ∈ ms, q = m ∨ (q.fqName ≠ m.fqName ∧ q.name ≠ m.name ∧
      q.fqName ≠ scrapeDurationFq ∧ q.fqName ≠ scrapeSuccessFq)) →
    m.fqName ≠ scrapeDurationFq → m.fqName ≠ scrapeSuccessFq →
    resps m.name = resps' m.name → durs m.name = durs' m.name →
    (collectSamples n ms resps durs).filter (belongsTo m) =
      (collectSamples n ms resps' durs').filter (belongsTo m) := by
  intro ms
  induction ms with
  | nil => intro resps resps' durs durs' _ _ _ _ _; rfl
  | cons q tl ih =>
    intro resps resps' durs durs' hall hmd hms hr hd
    rw [collectSamples_cons, collectSamples_cons, List.filter_append,
      List.filter_append,
      ih resps resps' durs durs'
        (fun p hp => hall p (List.mem_cons_of_mem _ hp)) hmd hms hr hd]
    rcases hall q (List.mem_cons_self _ _) with hq | ⟨hfq, hname, hqd, hqs⟩
    · rw [hq, hr, hd]
    · rw [collect_belongs_other n m q _ _ hfq hname hqd hqs hmd hms,
        collect_belongs_other n m q _ _ hfq hname hqd hqs hmd hms]

/-- C7: two-run noninterference between the per-metric fetches of a pass.
For every tracked metric `m`, if two runs of the collection pass receive
fetch responses and durations that agree on `m` (but may differ arbitrarily
on every other metric — including making them fail), the samples belonging
to `m` (its value sample and its two meta samples) are identical in the two
runs. -/
theorem collect_pass_noninterference (instanceId region : String) (m : Metric)
    (hm : m ∈ metrics)
    (resps resps' : String → Except String (List Datapoint))
    (durs durs' : String → FloatRep)
    (hr : resps m.name = resps' m.name) (hd : durs m.name = durs' m.name) :
    ((NewNASCollector instanceId region).Collect resps durs).filter
        (belongsTo m) =
      ((NewNASCollector instanceId region).Collect resps' durs').filter
        (belongsTo m) := by
  apply collectSamples_belongs_congr (NewNASCollector instanceId region) m
    metrics resps resps' durs durs' ?_ (metrics_fq_ne_meta m hm).1
    (metrics_fq_ne_meta m hm).2 hr hd
  intro q hq
  rcases metrics_pairwise_distinct m hm q hq with h | ⟨h1, h2⟩
  · exact Or.inl h
  · exact Or.inr ⟨h1, h2, (metrics_fq_ne_meta q hq).1, (metrics_fq_ne_meta q hq).2⟩

theorem collect_pass_noninterference_witness :
    (fsMetric ∈ metrics ∧
      ((fun _ => (.ok [⟨"2024-01-02T03:04:05Z", "3"⟩] :
          Except String (List Datapoint))) fsMetric.name =
        (fun name => if name = "FreeStorageSpace" then
            (.ok [⟨"2024-01-02T03:04:05Z", "3"⟩] :
              Except String (List Datapoint))
          else .error ("down")) fsMetric.name)) ∧
    ((NewNASCollector ("nas-001") ("jp-east-1")).Collect
        (fun _ => .ok [⟨"2024-01-02T03:04:05Z", "3"⟩])
        (fun _ => (FloatRep.finite false 1 (-2)))).filter (belongsTo fsMetric) =
      ((NewNASCollector ("nas-001") ("jp-east-1")).Collect
        (fun name => if name = "FreeStorageSpace" then
            .ok [⟨"2024-01-02T03:04:05Z", "3"⟩]
          else .error ("down"))
        (fun _ => (FloatRep.finite false 1 (-2)))).filter (belongsTo fsMetric) :=
  ⟨⟨by decide, rfl⟩,
    collect_pass_noninterference ("nas-001") ("jp-east-1") fsMetric (by decide)
      (fun _ => .ok [⟨"2024-01-02T03:04:05Z", "3"⟩])
      (fun name => if name = "FreeStorageSpace" then
          .ok [⟨"2024-01-02T03:04:05Z", "3"⟩]
        else .error ("down"))
      (fun _ => (FloatRep.finite false 1 (-2))) (fun _ => (FloatRep.finite false 1 (-2))) rfl rfl⟩

/-- C8: the collection pass holds no mutable state — one pass leaves the
collector unchanged, and repeated passes with a stubbed fetcher that always
returns the same data yield the identical sample list every time. -/
theorem collect_pass_idempotent :
    (∀ (n : NASCollector)
      (resps : String → Except String (List Datapoint))
      (durs : String → FloatRep), (CollectPass n resps durs).2 = n) ∧
    (∀ (k : Nat) (n : NASCollector)
      (resps : String → Except String (List Datapoint))
      (durs : String → FloatRep) (out : List Sample),
      out ∈ runPasses k n resps durs → out = n.Collect resps durs) := by
  constructor
  · intro n resps durs
    rfl
  · intro k
    induction k with
    | zero =>
      intro n resps durs out h
      exact absurd h (List.not_mem_nil _)
    | succ k ih =>
      intro n resps durs out h
      rcases List.mem_cons.mp h with h1 | h1
      · exact h1
      · exact ih n resps durs out h1

theorem collect_pass_idempotent_witness :
    ((NASCollector.Collect ⟨[fsMetric], "nas-001", "jp-east-1"⟩
        (fun _ => .ok [⟨"2024-01-02T03:04:05Z", "3"⟩])
        (fun _ => (FloatRep.finite false 1 (-2)))) ∈
      runPasses 2 ⟨[fsMetric], "nas-001", "jp-east-1"⟩
        (fun _ => .ok [⟨"2024-01-02T03:04:05Z", "3"⟩])
        (fun _ => (FloatRep.finite false 1 (-2)))) ∧
    (NASCollector.Collect ⟨[fsMetric], "nas-001", "jp-east-1"⟩
        (fun _ => .ok [⟨"2024-01-02T03:04:05Z", "3"⟩])
        (fun _ => (FloatRep.finite false 1 (-2)))) =
      (NASCollector.Collect ⟨[fsMetric], "nas-001", "jp-east-1"⟩
        (fun _ => .ok [⟨"2024-01-02T03:04:05Z", "3"⟩])
        (fun _ => (FloatRep.finite false 1 (-2)))) :=
  ⟨by decide,
    collect_pass_idempotent.2 2 ⟨[fsMetric], "nas-001", "jp-east-1"⟩
      (fun _ => .ok [⟨"2024-01-02T03:04:05Z", "3"⟩])
      (fun _ => (FloatRep.finite false 1 (-2))) _ (by decide)⟩

theorem digitChar_isDigit (n : Nat) : (digitChar n).isDigit = true := by
  have h : ∀ k, k < 10 → (Char.ofNat (48 + k)).isDigit = true := by decide
  exact h (n % 10) (Nat.mod_lt _ (by decide))

/-- Every formatted timestamp has the `YYYY-MM-DD HH:MM:SS` shape: the
padded fields are digit characters by construction and the separators are
literal. -/
theorem matchesTimestampLayout_format (t : Int) :
    matchesTimestampLayout (formatTimestamp t) = true := by
  unfold formatTimestamp pad4 pad2
  simp only [List.cons_append, List.nil_append]
  unfold matchesTimestampLayout
  simp [digitChar_isDigit]

/-- C9: every fetch issued at instant `now` queries the window from
`now - 180` seconds to `now`, both bounds rendered with the
`YYYY-MM-DD HH:MM:SS` layout in UTC, together with the instance dimension
and the metric name. -/
theorem request_window (now : Int) (instanceId metricName : String) :
    (buildRequestBody now instanceId metricName).startTime =
      formatTimestamp (now - 180 * 1000000000) ∧
    (buildRequestBody now instanceId metricName).endTime =
      formatTimestamp now ∧
    matchesTimestampLayout
      ((buildRequestBody now instanceId metricName).startTime) = true ∧
    matchesTimestampLayout
      ((buildRequestBody now instanceId metricName).endTime) = true ∧
    (buildRequestBody now instanceId metricName).dimensionName =
      "NASInstanceIdentifier" ∧
    (buildRequestBody now instanceId metricName).dimensionValue = instanceId ∧
    (buildRequestBody now instanceId metricName).metricName = metricName :=
  ⟨rfl, rfl, matchesTimestampLayout_format _, matchesTimestampLayout_format _,
    rfl, rfl, rfl⟩

/-- C10: the per-metric emission order is fixed.  On a successful fetch the
value sample is emitted first, then the duration sample, then the success
sample; on a failed fetch only the duration sample and then the success
sample are emitted.  In both cases the two meta samples come last, duration
immediately before success. -/
theorem collect_emission_order (n : NASCollector) (m : Metric)
    (resp : Except String (List Datapoint)) (dur : FloatRep)
    (hm : m ∈ metrics) :
    (n.collect m resp dur).map kindOf =
      if isOkResult (n.scrape m resp) = true then
        [SampleKind.value, SampleKind.duration, SampleKind.success]
      else [SampleKind.duration, SampleKind.success] := by
  obtain ⟨hd, hs⟩ := metrics_fq_ne_meta m hm
  have h1 : (m.fqName == scrapeDurationFq) = false := beq_eq_false_iff_ne.mpr hd
  have h2 : (m.fqName == scrapeSuccessFq) = false := beq_eq_false_iff_ne.mpr hs
  cases h : n.scrape m resp with
  | ok s =>
    obtain ⟨v, rfl⟩ := scrape_ok_shape n m resp s h
    rw [collect_ok n m resp dur _ h]
    simp [kindOf, valueSample, durationSample, successSample, isOkResult,
      h1, h2, durFq_beq_succFq, succFq_beq_durFq]
  | error e =>
    rw [collect_error n m resp dur e h]
    simp [kindOf, durationSample, successSample, isOkResult,
      durFq_beq_succFq, succFq_beq_durFq]

theorem collect_emission_order_witness :
    (fsMetric ∈ metrics) ∧
    (sampleCollector.collect fsMetric
        (.ok [⟨"2024-01-02T03:04:05Z", "1.5"⟩]) (FloatRep.finite false 5 (-2))).map kindOf =
      (if isOkResult (sampleCollector.scrape fsMetric
          (.ok [⟨"2024-01-02T03:04:05Z", "1.5"⟩])) = true then
        [SampleKind.value, SampleKind.duration, SampleKind.success]
      else [SampleKind.duration, SampleKind.success]) :=
  ⟨by decide, collect_emission_order sampleCollector fsMetric
    (.ok [⟨"2024-01-02T03:04:05Z", "1.5"⟩]) (FloatRep.finite false 5 (-2)) (by decide)⟩

end NasExporter






